import Mathlib

/-!
Verification development for the `catcher` daemon (`daemon.py`).

The daemon is a single-instance watcher: an instance lock based on a PID
file (`daemon_already_running`), a JSON configuration of pattern/action
rules (`load_config`, `check_config_update`), a dispatcher loop that
matches each input line against every rule and executes the matching
actions (`monitor_terminal`), and shell-profile install/uninstall helpers
(`install_daemon`, `uninstall_daemon`).

This file gives a shallow embedding of those functions and proves the
specified properties about them.  Strings are modelled as `List Char`;
the filesystem state relevant to each call is passed explicitly; Python
exceptions are modelled with `Except`.
-/

namespace Catcher

/-- Text, modelled as a list of characters (Python `str`). -/
abbrev Str := List Char

/-- One configuration rule: an error `pattern` to search for and the shell
`action` to execute when it matches (one entry of the JSON `errors` array). -/
structure Rule where
  pattern : Str
  action : Str
deriving DecidableEq, Repr

/-- A parsed configuration: the JSON object's `errors` list, in file order. -/
structure Config where
  errors : List Rule
deriving DecidableEq, Repr

/-- Failure of `open`/`json.load` in `load_config`: the file is missing,
unreadable, or malformed.  `load_config` raises in all three cases and the
distinction is irrelevant downstream, so one constructor suffices. -/
inductive ConfigErr where
  | unavailable
deriving DecidableEq, Repr

deriving instance DecidableEq for Except

/-- The observable state of the configuration file at one moment: its
modification timestamp (`os.path.getmtime`) and the outcome of reading and
parsing it (`open` + `json.load`, which raises when the file is missing or
malformed). -/
structure ConfigFile where
  mtime : Nat
  data : Except ConfigErr Config
deriving DecidableEq, Repr

/-- `load_config`: opens and parses the configuration file; any failure
propagates to the caller (the Python body has no exception handler). -/
def load_config (f : ConfigFile) : Except ConfigErr Config :=
  f.data

/-- `check_config_update(last_modified, config_path)`: compares the file's
current modification time with `last_modified`; if unchanged it returns
`(None, last_modified)` without opening the file, otherwise it reloads and
returns `(new_config, current_modified)`.  A reload failure propagates. -/
def check_config_update (last_modified : Nat) (f : ConfigFile) :
    Except ConfigErr (Option Config × Nat) :=
  if f.mtime ≠ last_modified then
    match load_config f with
    | Except.ok c => Except.ok (some c, f.mtime)
    | Except.error e => Except.error e
  else
    Except.ok (none, last_modified)

/-- `pat` starts `s` (helper for the substring test; Python compares
character by character). -/
def strStarts : Str → Str → Bool
  | [], _ => true
  | _ :: _, [] => false
  | p :: ps, c :: cs => (p = c : Bool) && strStarts ps cs

/-- Python's substring operator `pat in line`: true iff `pat` occurs
contiguously somewhere in `line` (the empty pattern always matches). -/
def pyIn (pat line : Str) : Bool :=
  match line with
  | [] => pat.isEmpty
  | _ :: rest => strStarts pat line || pyIn pat rest

/-- The body of the dispatcher's `for error in config['errors']` loop:
every rule whose pattern occurs in `line` contributes its action, in rule
order, with no short-circuit and no deduplication.  Returns the list of
actions passed to `execute_in_terminal`, in execution order. -/
def fireRules : List Rule → Str → List Str
  | [], _ => []
  | r :: rs, line =>
    if pyIn r.pattern line then r.action :: fireRules rs line
    else fireRules rs line

/-- One entry taken from the handoff queue by `queue.get()`: `none` is the
Sentinel (`None`, pushed on shutdown); `some (line, f)` is an input line
together with the configuration-file state the dispatcher observes while
processing that line (the file can change between iterations, so each
consumed line carries its own observation). -/
abbrev QueueItem := Option (Str × ConfigFile)

/-- The dispatcher's `while True` loop in `monitor_terminal`, run over the
queue contents: pop an item; on the Sentinel, break at once; otherwise run
`check_config_update` (adopting the new snapshot if any) and fire every
matching rule of the current snapshot on the line.  Returns the actions
executed, in order, together with the queue items left unconsumed after
the loop exits; a reload failure propagates and kills the loop. -/
def monitor_loop (config : Config) (last_modified : Nat) :
    List QueueItem → Except ConfigErr (List Str × List QueueItem)
  | [] => Except.ok ([], [])
  | none :: rest => Except.ok ([], rest)
  | some (line, f) :: rest =>
    match check_config_update last_modified f with
    | Except.error e => Except.error e
    | Except.ok (newConfig, lm) =>
      let config := match newConfig with
        | some c => c
        | none => config
      match monitor_loop config lm rest with
      | Except.error e => Except.error e
      | Except.ok (acts, rem) =>
        Except.ok (fireRules config.errors line ++ acts, rem)

/-- `monitor_terminal(queue)`: loads the configuration, records the file's
modification time, then runs the dispatch loop.  A load failure propagates
out of the thread body (the function has no exception handler).  `f0` is
the configuration-file state at thread start. -/
def monitor_terminal (f0 : ConfigFile) (queue : List QueueItem) :
    Except ConfigErr (List Str × List QueueItem) :=
  match load_config f0 with
  | Except.error e => Except.error e
  | Except.ok config => monitor_loop config f0.mtime queue

/-- `ValueError` raised by `int(...)` in `daemon_already_running` when the
PID file's content is not a parseable integer. -/
inductive PidErr where
  | valueError
deriving DecidableEq, Repr

/-- Python whitespace, as stripped by `str.strip()` with no argument. -/
def pyIsSpace (c : Char) : Bool :=
  c = ' ' || c = '\t' || c = '\n' || c = '\r' || c = '\x0b' || c = '\x0c'

/-- `str.strip()`: remove leading and trailing whitespace. -/
def pyStrip (s : Str) : Str :=
  ((s.dropWhile pyIsSpace).reverse.dropWhile pyIsSpace).reverse

/-- Accumulate a run of decimal digits left to right; fails at the first
non-digit character. -/
def digitsValAux (acc : Nat) : Str → Option Nat
  | [] => some acc
  | c :: cs =>
    if c.isDigit then digitsValAux (acc * 10 + (c.toNat - '0'.toNat)) cs
    else none

/-- All-decimal-digit run to a number; fails on the empty string or any
non-digit character. -/
def digitsVal : Str → Option Nat
  | [] => none
  | c :: cs => digitsValAux 0 (c :: cs)

/-- `int(s)` on an already-stripped string: an optional sign followed by a
nonempty run of decimal digits; anything else raises `ValueError`.
(Digit-group underscores and non-ASCII digits, which CPython also accepts,
are not modelled: no claim depends on them.) -/
def pyIntCore : Str → Option Int
  | '+' :: rest => (digitsVal rest).map Int.ofNat
  | '-' :: rest => (digitsVal rest).map (fun n => -(n : Int))
  | s => (digitsVal s).map Int.ofNat

/-- `int(file.read().strip())`: strip whitespace, then parse. -/
def parse_pid (s : Str) : Option Int :=
  pyIntCore (pyStrip s)

/-- `str(os.getpid())` for the record write. -/
def pidText (pid : Int) : Str :=
  (toString pid).toList

/-- `daemon_already_running()`.  Inputs: the PID file's content (`none` if
the file does not exist), the process table (`live pid` iff
`/proc/{pid}` exists), and the caller's own PID.  Output: the function's
result (`true` = already running, `false` = acquired; `Except.error` if
`int(...)` raised) paired with the PID file's content afterwards.  The
write of the caller's PID is reached only when no live instance was
found and parsing did not raise. -/
def daemon_already_running (pidFile : Option Str) (live : Int → Bool)
    (self : Int) : Except PidErr Bool × Option Str :=
  match pidFile with
  | some s =>
    match parse_pid s with
    | none => (Except.error PidErr.valueError, some s)
    | some pid =>
      if live pid then (Except.ok true, some s)
      else (Except.ok false, some (pidText self))
  | none => (Except.ok false, some (pidText self))

/-- The observable outcome of one `init_daemon()` run. -/
structure ProcessRun where
  /-- `daemon_already_running()` returned `True`: print and return. -/
  alreadyRunning : Bool
  /-- PID file content after the run. -/
  pidFileAfter : Option Str
  /-- Outcome of the monitor thread: the actions it executed, or the
  uncaught exception that killed it; `none` if it was never started. -/
  monitorOutcome : Option (Except ConfigErr (List Str))
  /-- The stdin lines the main thread read and enqueued. -/
  mainConsumed : List Str
deriving DecidableEq, Repr

/-- `init_daemon()`.  If the lock is held, print and return without
starting anything.  Otherwise start `monitor_terminal` on a daughter
thread and loop reading stdin into the queue until interrupted, then push
the Sentinel and join.  A Python `threading.Thread` that dies of an
uncaught exception does not terminate the process: the main loop keeps
reading stdin regardless of the monitor thread's fate, so `mainConsumed`
is all of stdin even when the thread died at its first step.  `stdin` is
the line sequence read before the interrupt arrives; `filesAt` gives the
configuration-file state observed at each line's processing; an exception
from `daemon_already_running` propagates out of `init_daemon`. -/
def init_daemon (pidFile : Option Str) (live : Int → Bool) (self : Int)
    (f0 : ConfigFile) (stdin : List Str) (filesAt : List ConfigFile) :
    Except PidErr ProcessRun :=
  match daemon_already_running pidFile live self with
  | (Except.error e, _) => Except.error e
  | (Except.ok true, pidAfter) =>
    Except.ok { alreadyRunning := true, pidFileAfter := pidAfter,
                monitorOutcome := none, mainConsumed := [] }
  | (Except.ok false, pidAfter) =>
    let queue : List QueueItem :=
      ((stdin.zip filesAt).map (fun p => some p)) ++ [none]
    Except.ok { alreadyRunning := false, pidFileAfter := pidAfter,
                monitorOutcome :=
                  some ((monitor_terminal f0 queue).map Prod.fst),
                mainConsumed := stdin }

/-- The line `install_daemon` appends to the shell profile and
`uninstall_daemon` removes from it. -/
def daemon_command : Str :=
  "python /path/to/daemon.py &\n".toList

/-- `str.strip("\n")`: remove leading and trailing newline characters
(the comparison key used by `uninstall_daemon`). -/
def stripNl (s : Str) : Str :=
  ((s.dropWhile (fun c => c = '\n')).reverse.dropWhile (fun c => c = '\n')).reverse

/-- `file.readlines()`: split the content into lines, each keeping its
trailing newline; a final fragment without a newline is its own line; the
empty file has no lines.  `acc` holds the current line's characters in
reverse. -/
def readlinesAux (acc : Str) : Str → List Str
  | [] => if acc.isEmpty then [] else [acc.reverse]
  | c :: cs =>
    if c = '\n' then (acc.reverse ++ ['\n']) :: readlinesAux [] cs
    else readlinesAux (c :: acc) cs

/-- `file.readlines()` on a whole file content. -/
def readlines (s : Str) : List Str :=
  readlinesAux [] s

/-- `install_daemon()`: append the launch invocation to the shell
profile (`open(..., 'a')` followed by one `write`). -/
def install_daemon (profile : Str) : Str :=
  profile ++ daemon_command

/-- `uninstall_daemon()`: read the profile's lines and write back exactly
those whose content, with surrounding newlines stripped, differs from the
launch invocation's. -/
def uninstall_daemon (profile : Str) : Str :=
  ((readlines profile).filter
    (fun line => stripNl line ≠ stripNl daemon_command)).flatten

theorem strStarts_iff (p l : Str) : strStarts p l = true ↔ p <+: l := by
  induction p generalizing l with
  | nil => simp [strStarts]
  | cons a ps ih =>
    cases l with
    | nil => simp [strStarts]
    | cons c cs =>
      simp [strStarts, ih, List.cons_prefix_cons]

theorem pyIn_iff (pat line : Str) : pyIn pat line = true ↔ pat <:+: line := by
  induction line with
  | nil => simp [pyIn, List.isEmpty_iff, List.infix_nil]
  | cons c cs ih =>
    simp only [pyIn, Bool.or_eq_true, strStarts_iff, ih, List.infix_cons_iff]

/-- **C1.**  For every input line `L` and every loaded rule set `R`, the
dispatcher triggers exactly the actions of those rules in `R` whose
pattern occurs as a literal substring of `L` (the `<:+:` relation), one
action invocation per matching rule, in the order the rules appear in
`R`, with no short-circuit and no deduplication: the executed-action list
equals the in-order filter of `R` by substring match, mapped to actions. -/
theorem dispatcher_fires_exactly_matching_rules (R : List Rule) (L : Str) :
    fireRules R L =
      (R.filter (fun r => decide (r.pattern <:+: L))).map Rule.action := by
  induction R with
  | nil => rfl
  | cons r rs ih =>
    by_cases h : r.pattern <:+: L
    · have hb : pyIn r.pattern L = true := (pyIn_iff _ _).mpr h
      simp [fireRules, hb, List.filter_cons, h, ih]
    · have hb : pyIn r.pattern L = false := by
        rw [Bool.eq_false_iff]
        intro hc
        exact h ((pyIn_iff _ _).mp hc)
      simp [fireRules, hb, List.filter_cons, h, ih]

/-- **C4.**  Whenever the persisted PID file names a currently live
process, `daemon_already_running` returns `True` (already running) and
the PID file's content is left exactly as it was. -/
theorem live_record_already_running (s : Str) (live : Int → Bool)
    (self pid : Int) (hp : parse_pid s = some pid) (hl : live pid = true) :
    daemon_already_running (some s) live self = (Except.ok true, some s) := by
  simp [daemon_already_running, hp, hl]

theorem live_record_already_running_witness :
    parse_pid "7".toList = some 7 ∧ (fun p : Int => p == 7) 7 = true ∧
      daemon_already_running (some "7".toList) (fun p : Int => p == 7) 9 =
        (Except.ok true, some "7".toList) :=
  ⟨by decide, by decide,
    live_record_already_running "7".toList (fun p : Int => p == 7) 9 7
      (by decide) (by decide)⟩

/-- **C5.**  Whenever the PID file is absent, or present but naming a
process identifier that is not live, `daemon_already_running` returns
`False` (acquired) and the PID file afterwards holds the caller's own
process identifier. -/
theorem stale_or_absent_record_acquires (pidFile : Option Str)
    (live : Int → Bool) (self : Int)
    (h : ∀ s, pidFile = some s →
      ∃ pid, parse_pid s = some pid ∧ live pid = false) :
    daemon_already_running pidFile live self =
      (Except.ok false, some (pidText self)) := by
  cases pidFile with
  | none => rfl
  | some s =>
    obtain ⟨pid, hp, hl⟩ := h s rfl
    simp [daemon_already_running, hp, hl]

theorem stale_or_absent_record_acquires_witness :
    daemon_already_running (some "3".toList) (fun _ : Int => false) 8 =
      (Except.ok false, some (pidText 8)) :=
  stale_or_absent_record_acquires (some "3".toList) (fun _ : Int => false) 8
    (fun s hs => by
      cases hs
      exact ⟨3, by decide, rfl⟩)

/-- **C9.**  If the PID file exists but its content does not parse as a
decimal integer (for example, an empty file), `daemon_already_running`
raises `ValueError` instead of returning either result, and the PID file
is not overwritten. -/
theorem unparseable_record_raises (s : Str) (live : Int → Bool)
    (self : Int) (h : parse_pid s = none) :
    daemon_already_running (some s) live self =
      (Except.error PidErr.valueError, some s) := by
  simp [daemon_already_running, h]

theorem unparseable_record_raises_witness :
    parse_pid "".toList = none ∧
      daemon_already_running (some "".toList) (fun _ : Int => true) 4 =
        (Except.error PidErr.valueError, some "".toList) :=
  ⟨by decide,
    unparseable_record_raises "".toList (fun _ : Int => true) 4 (by decide)⟩

/-- **C3 counterexample.**  The claim says that once the Sentinel has
been pushed, the Dispatcher processes no further lines, *including lines
already queued ahead of it*.  The handoff queue is FIFO: a line queued
ahead of the Sentinel is dequeued before it and is processed normally.
Concretely, with rule `OOM → killer.sh`, the queue
`[line "OOM detected", Sentinel]` still executes `killer.sh`, so the
action trace is not empty as the claim would require. -/
theorem sentinel_claim_counterexample :
    (monitor_loop ⟨[⟨"OOM".toList, "killer.sh".toList⟩]⟩ 0
        [some ("OOM detected".toList,
           ⟨0, Except.ok ⟨[⟨"OOM".toList, "killer.sh".toList⟩]⟩⟩), none]).map
      Prod.fst ≠ Except.ok [] := by
  decide

/-- **C3 (amended).**  When the Dispatcher dequeues the Sentinel it stops
immediately: it performs no staleness check, triggers no action, and
leaves every item queued behind the Sentinel unconsumed — the loop exits
at once.  (Lines queued ahead of the Sentinel are dequeued first and are
still processed normally.) -/
theorem sentinel_stops_loop_immediately (config : Config) (lm : Nat)
    (rest : List QueueItem) :
    monitor_loop config lm (none :: rest) = Except.ok ([], rest) :=
  rfl

theorem check_config_update_mtime_eq (g : ConfigFile) (lm : Nat)
    (hg : g.mtime = lm) :
    check_config_update lm g = Except.ok (none, lm) := by
  simp [check_config_update, hg]

theorem check_config_update_ok_snd (f : ConfigFile) (lm lm' : Nat)
    (c? : Option Config) (h : check_config_update lm f = Except.ok (c?, lm')) :
    lm' = f.mtime := by
  unfold check_config_update at h
  by_cases hm : f.mtime ≠ lm
  · rw [if_pos hm] at h
    cases hl : load_config f with
    | error e => rw [hl] at h; cases h
    | ok c => rw [hl] at h; cases h; rfl
  · rw [if_neg hm] at h
    push_neg at hm
    simp at h
    omega

/-- **C7.**  `RefreshIfStale` is idempotent: if one call to
`check_config_update` succeeds and returns the timestamp `lm'`, then a
second call with `lm'` against a file whose modification timestamp is
unchanged returns no new snapshot.  The second file state `g` is
constrained only in its timestamp, not its content, which shows the
unchanged branch never opens or re-reads the file. -/
theorem refresh_if_stale_idempotent (f g : ConfigFile) (lm lm' : Nat)
    (c? : Option Config)
    (h : check_config_update lm f = Except.ok (c?, lm'))
    (hg : g.mtime = f.mtime) :
    check_config_update lm' g = Except.ok (none, lm') := by
  have h2 := check_config_update_ok_snd f lm lm' c? h
  exact check_config_update_mtime_eq g lm' (by rw [hg, h2])

theorem refresh_if_stale_idempotent_witness :
    check_config_update 0 ⟨5, Except.ok ⟨[]⟩⟩ =
        Except.ok (some ⟨[]⟩, 5) ∧
      check_config_update 5 ⟨5, Except.ok ⟨[]⟩⟩ = Except.ok (none, 5) :=
  ⟨by decide,
    refresh_if_stale_idempotent ⟨5, Except.ok ⟨[]⟩⟩ ⟨5, Except.ok ⟨[]⟩⟩ 0 5
      (some ⟨[]⟩) (by decide) rfl⟩

/-- **C6.**  If the configuration file has been modified (its timestamp
differs from the held one) and now parses to the rule set `c'`, then the
very next line the Dispatcher processes is matched against `c'`, not the
old snapshot: the actions fired for that line are `fireRules c'.errors
line`, and the rest of the loop continues from the new snapshot and
timestamp.  The staleness check runs before matching on every consumed
line. -/
theorem reload_applies_to_next_line (config c' : Config) (lm : Nat)
    (line : Str) (f : ConfigFile) (rest : List QueueItem)
    (acts : List Str) (rem : List QueueItem)
    (hm : f.mtime ≠ lm) (hd : f.data = Except.ok c')
    (hrest : monitor_loop c' f.mtime rest = Except.ok (acts, rem)) :
    monitor_loop config lm (some (line, f) :: rest) =
      Except.ok (fireRules c'.errors line ++ acts, rem) := by
  simp [monitor_loop, check_config_update, load_config, hm, hd, hrest]

theorem reload_applies_to_next_line_witness :
    monitor_loop ⟨[⟨"old".toList, "a.sh".toList⟩]⟩ 0
        [some ("new error".toList,
           ⟨1, Except.ok ⟨[⟨"new".toList, "b.sh".toList⟩]⟩⟩)] =
      Except.ok (["b.sh".toList], []) := by
  have h := reload_applies_to_next_line ⟨[⟨"old".toList, "a.sh".toList⟩]⟩
    ⟨[⟨"new".toList, "b.sh".toList⟩]⟩ 0 "new error".toList
    ⟨1, Except.ok ⟨[⟨"new".toList, "b.sh".toList⟩]⟩⟩ [] [] []
    (by decide) rfl rfl
  rw [h]
  decide

/-- **C8.**  A loaded configuration with zero rules causes no action to
ever be invoked: for any input queue all of whose observed file states
still parse to the empty rule set, the Dispatcher's action trace is
empty. -/
theorem empty_rules_fire_no_actions (lm : Nat) (queue : List QueueItem)
    (hq : ∀ l f, some (l, f) ∈ queue → f.data = Except.ok ⟨[]⟩) :
    (monitor_loop ⟨[]⟩ lm queue).map Prod.fst = Except.ok [] := by
  induction queue generalizing lm with
  | nil => rfl
  | cons item rest ih =>
    have hrest : ∀ l f, some (l, f) ∈ rest → f.data = Except.ok ⟨[]⟩ :=
      fun l f hm => hq l f (List.mem_cons_of_mem _ hm)
    cases item with
    | none => rfl
    | some lf =>
      obtain ⟨l, f⟩ := lf
      have hf : f.data = Except.ok ⟨[]⟩ := hq l f (List.mem_cons_self _ _)
      by_cases hm : f.mtime ≠ lm
      · have htail := ih f.mtime hrest
        cases hres : monitor_loop ⟨[]⟩ f.mtime rest with
        | error e => rw [hres] at htail; cases htail
        | ok p =>
          rw [hres] at htail
          simp [Except.map] at htail
          simp [monitor_loop, check_config_update, load_config, hm, hf,
            hres, fireRules, Except.map, htail]
      · push_neg at hm
        have htail := ih lm hrest
        cases hres : monitor_loop ⟨[]⟩ lm rest with
        | error e => rw [hres] at htail; cases htail
        | ok p =>
          rw [hres] at htail
          simp [Except.map] at htail
          simp [monitor_loop, check_config_update, hm, hres, fireRules,
            Except.map, htail]

theorem empty_rules_fire_no_actions_witness :
    (monitor_loop ⟨[]⟩ 0
        [some ("OOM detected".toList, ⟨3, Except.ok ⟨[]⟩⟩), none]).map
      Prod.fst = Except.ok [] :=
  empty_rules_fire_no_actions 0
    [some ("OOM detected".toList, ⟨3, Except.ok ⟨[]⟩⟩), none]
    (fun l f hm => by
      simp at hm
      rw [hm.2])

/-- **C2.**  Evaluation at the failing input.  When the configuration
file is unavailable at startup, `load_config` raises and the exception
propagates uncaught through `monitor_terminal` — but `monitor_terminal`
runs on a daughter thread, and in Python an uncaught exception only kills
that thread.  The main thread's read loop keeps consuming stdin, so the
process keeps running with no rules instead of aborting at startup: here
it acquires the lock, the monitor thread dies with the load error having
executed nothing, and the whole stdin stream is still read. -/
theorem config_load_failure_does_not_abort_process :
    init_daemon none (fun _ : Int => false) 1
        ⟨0, Except.error ConfigErr.unavailable⟩ ["echo hi".toList]
        [⟨0, Except.error ConfigErr.unavailable⟩] =
      Except.ok
        { alreadyRunning := false, pidFileAfter := some (pidText 1),
          monitorOutcome := some (Except.error ConfigErr.unavailable),
          mainConsumed := ["echo hi".toList] } := by
  decide

theorem readlinesAux_flatten (s : Str) (acc : Str) :
    (readlinesAux acc s).flatten = acc.reverse ++ s := by
  induction s generalizing acc with
  | nil =>
    by_cases ha : acc.isEmpty
    · rw [List.isEmpty_iff] at ha
      simp [readlinesAux, ha]
    · simp [readlinesAux, ha]
  | cons c cs ih =>
    by_cases hc : c = '\n'
    · subst hc
      simp [readlinesAux, ih]
    · simp [readlinesAux, hc, ih]

theorem readlines_flatten (s : Str) : (readlines s).flatten = s := by
  simpa using readlinesAux_flatten s []

theorem readlinesAux_newline (acc cs : Str) :
    readlinesAux acc ('\n' :: cs) =
      (acc.reverse ++ ['\n']) :: readlinesAux [] cs := by
  simp [readlinesAux]

theorem readlinesAux_other (acc : Str) (c : Char) (cs : Str) (hc : c ≠ '\n') :
    readlinesAux acc (c :: cs) = readlinesAux (c :: acc) cs := by
  simp [readlinesAux, hc]

theorem readlinesAux_append (a b : Str) (acc : Str)
    (h : a.getLast? = some '\n') :
    readlinesAux acc (a ++ b) = readlinesAux acc a ++ readlinesAux [] b := by
  induction a generalizing acc with
  | nil => cases h
  | cons c cs ih =>
    cases cs with
    | nil =>
      simp at h
      subst h
      rw [List.cons_append, List.nil_append, readlinesAux_newline,
        readlinesAux_newline]
      simp [readlinesAux]
    | cons d ds =>
      have h' : (d :: ds).getLast? = some '\n' := by
        rw [List.getLast?_cons_cons] at h
        exact h
      by_cases hc : c = '\n'
      · subst hc
        rw [List.cons_append, readlinesAux_newline, readlinesAux_newline,
          ih _ h', List.cons_append]
      · rw [List.cons_append, readlinesAux_other _ _ _ hc,
          readlinesAux_other _ _ _ hc, ih _ h']

theorem readlinesAux_no_inner_newline (s : Str) (acc : Str) (l : Str)
    (hl : l ∈ readlinesAux acc s) (ha : '\n' ∉ acc) :
    '\n' ∉ l.dropLast := by
  induction s generalizing acc with
  | nil =>
    by_cases he : acc.isEmpty
    · simp [readlinesAux, he] at hl
    · simp [readlinesAux, he] at hl
      subst hl
      intro hmem
      exact ha (by
        have h2 := (List.dropLast_sublist acc.reverse).subset hmem
        simpa using h2)
  | cons c cs ih =>
    by_cases hc : c = '\n'
    · subst hc
      rw [readlinesAux_newline] at hl
      rcases List.mem_cons.mp hl with hl | hl
      · subst hl
        rw [List.dropLast_concat]
        intro hmem
        exact ha (by simpa using hmem)
      · exact ih [] hl (by simp)
    · rw [readlinesAux_other _ _ _ hc] at hl
      refine ih (c :: acc) hl ?_
      intro hmem
      rcases List.mem_cons.mp hmem with h1 | h1
      · exact hc h1.symm
      · exact ha h1

theorem readlinesAux_ends_newline (s : Str) (acc : Str) (l : Str)
    (hl : l ∈ readlinesAux acc s) (hs : s.getLast? = some '\n') :
    l.getLast? = some '\n' := by
  induction s generalizing acc with
  | nil => cases hs
  | cons c cs ih =>
    cases cs with
    | nil =>
      simp at hs
      subst hs
      rw [readlinesAux_newline] at hl
      rcases List.mem_cons.mp hl with hl | hl
      · subst hl
        simp
      · simp [readlinesAux] at hl
    | cons d ds =>
      have hs' : (d :: ds).getLast? = some '\n' := by
        rw [List.getLast?_cons_cons] at hs
        exact hs
      by_cases hc : c = '\n'
      · subst hc
        rw [readlinesAux_newline] at hl
        rcases List.mem_cons.mp hl with hl | hl
        · subst hl
          simp
        · exact ih _ hl hs'
      · rw [readlinesAux_other _ _ _ hc] at hl
        exact ih _ hl hs'

theorem dropWhile_newline_of_not_mem (x : Str) (h : '\n' ∉ x) :
    x.dropWhile (fun c => c = '\n') = x := by
  cases x with
  | nil => rfl
  | cons c cs =>
    have hc : c ≠ '\n' := fun he => h (he ▸ List.mem_cons_self _ _)
    simp [List.dropWhile_cons, hc]

theorem stripNl_concat_newline (d : Str) (h : '\n' ∉ d) :
    stripNl (d ++ ['\n']) = d := by
  cases d with
  | nil => rfl
  | cons c cs =>
    have hc : c ≠ '\n' := fun he => h (he ▸ List.mem_cons_self _ _)
    have hrev : '\n' ∉ (c :: cs).reverse :=
      fun hmem => h (List.mem_reverse.mp hmem)
    have hfront : ((c :: cs ++ ['\n']).dropWhile fun ch => ch = '\n') =
        c :: cs ++ ['\n'] := by
      rw [List.cons_append, List.dropWhile_cons]
      simp [hc]
    unfold stripNl
    rw [hfront]
    rw [show ((c :: cs ++ ['\n']) : Str).reverse = '\n' :: (c :: cs).reverse
      by simp]
    rw [List.dropWhile_cons]
    have hcond : ((fun ch => decide (ch = '\n')) '\n' = true) := by decide
    rw [if_pos hcond, dropWhile_newline_of_not_mem _ hrev,
      List.reverse_reverse]

theorem line_eq_cmd_of_stripNl_eq (l : Str)
    (hd : '\n' ∉ l.dropLast) (he : l.getLast? = some '\n')
    (hs : stripNl l = stripNl daemon_command) : l = daemon_command := by
  have hne : l ≠ [] := by
    intro h
    rw [h] at he
    cases he
  have hdecomp : l.dropLast ++ [l.getLast hne] = l :=
    List.dropLast_append_getLast hne
  have hlast : l.getLast hne = '\n' := by
    have h2 := List.getLast?_eq_getLast l hne
    rw [he] at h2
    exact (Option.some.inj h2).symm
  rw [hlast] at hdecomp
  have hstrip : stripNl l = l.dropLast := by
    conv_lhs => rw [← hdecomp]
    exact stripNl_concat_newline _ hd
  have hcmd : stripNl daemon_command = "python /path/to/daemon.py &".toList := by
    decide
  rw [hstrip, hcmd] at hs
  rw [← hdecomp, hs]
  decide

/-- **C10.**  For every shell-profile content that ends with a newline
and contains no line equal to the launch invocation, running
`uninstall_daemon` immediately after `install_daemon` restores the
profile exactly: install appends the launch-invocation line, uninstall
removes every line equal to it (after stripping surrounding newlines),
and nothing else changes. -/
theorem uninstall_after_install_restores_profile (profile : Str)
    (hend : profile.getLast? = some '\n')
    (hno : daemon_command ∉ readlines profile) :
    uninstall_daemon (install_daemon profile) = profile := by
  unfold uninstall_daemon install_daemon
  unfold readlines
  rw [readlinesAux_append profile daemon_command [] hend]
  have hcmdlines : readlinesAux [] daemon_command = [daemon_command] := by
    decide
  rw [hcmdlines, List.filter_append]
  have hdrop : List.filter
      (fun line => decide (stripNl line ≠ stripNl daemon_command))
      [daemon_command] = [] := by
    simp
  have hkeep : List.filter
      (fun line => decide (stripNl line ≠ stripNl daemon_command))
      (readlinesAux [] profile) = readlinesAux [] profile := by
    rw [List.filter_eq_self]
    intro a ha
    simp only [decide_eq_true_eq]
    intro heq
    exact hno (by
      have := line_eq_cmd_of_stripNl_eq a
        (readlinesAux_no_inner_newline profile [] a ha (by simp))
        (readlinesAux_ends_newline profile [] a ha hend) heq
      rw [← this]
      exact ha)
  rw [hdrop, hkeep, List.append_nil]
  exact readlines_flatten profile

theorem uninstall_after_install_restores_profile_witness :
    "export PATH\n".toList.getLast? = some '\n' ∧
      daemon_command ∉ readlines "export PATH\n".toList ∧
      uninstall_daemon (install_daemon "export PATH\n".toList) =
        "export PATH\n".toList :=
  ⟨by decide, by decide,
    uninstall_after_install_restores_profile "export PATH\n".toList
      (by decide) (by decide)⟩

end Catcher
